import Mathlib

/-!
Verification of the lock-elision primitive in src/core/tsx.c and the cycle
counter in src/core/rdtsc.c.

The C function `rte_try_tm` is embedded as a Lean function over an
environment of oracles modelling the hardware: the status delivered by each
execution of the XBEGIN instruction, the status delivered when control
resumes at the XBEGIN point after an XABORT, the value observed by each read
of the shared lock flag, and the value delivered by each RDTSC execution.
The two unbounded inner loops of the C code (the pause busy-wait on the lock
flag, and the abort-resume chain at the XBEGIN point) are given explicit
fuel; `none` means some inner loop did not finish within its fuel.
-/

namespace Dpdk

/-! ## Constants, from the #defines at the top of src/core/tsx.c -/

def RTE_XBEGIN_STARTED : Nat := 4294967295

def RTE_XABORT_EXPLICIT : Nat := 1

def RTE_XABORT_RETRY : Nat := 2

def RTE_XABORT_CONFLICT : Nat := 4

def RTE_XABORT_CAPACITY : Nat := 8

def RTE_XABORT_DEBUG : Nat := 16

def RTE_XABORT_NESTED : Nat := 32

def RTE_XABORT_CODE (x : Nat) : Nat := (x >>> 24) &&& 0xff

def RTE_RTM_MAX_RETRIES : Nat := 20

def RTE_XABORT_LOCK_BUSY : Nat := 0xff

/-- Hardware/environment oracles.
`beginResult n` is the status delivered by the n-th execution of the XBEGIN
instruction; `abortStatus n` is the status delivered at the XBEGIN point when
the n-th XABORT rolls the transaction back; `lockVal t` is the value observed
by the t-th read of `*lock` (the external fallback lock may change it between
reads); `rdtsc n` is the value delivered by the n-th RDTSC execution. -/
structure Env where
  beginResult : Nat → Nat
  abortStatus : Nat → Nat
  lockVal : Nat → Int
  rdtsc : Nat → Nat

/-- Instrumentation state threaded through the run: counts of lock reads,
XBEGIN executions, XABORT executions, RDTSC executions, loop iterations
entered, stores to `*lock` performed by the primitive itself, and the list of
backoff pause counts in order. -/
structure St where
  reads : Nat
  begins : Nat
  aborts : Nat
  ticks : Nat
  iters : Nat
  writes : Nat
  backoffs : List Nat
  deriving DecidableEq, Repr

def St.init : St := ⟨0, 0, 0, 0, 0, 0, []⟩

/-- The jitter term `(rte_rdtsc() & 0x7) | 1` of src/core/tsx.c line 92. -/
def jitterOf (c : Nat) : Nat := (c &&& 0x7) ||| 1

/-- The inner busy-wait `while (*lock) { __builtin_ia32_pause(); }`
(src/core/tsx.c lines 85-87).  `t` is the index of the next lock read, `f`
bounds the number of pause iterations; on termination it returns the index
after the read that observed zero. -/
def busyWait (env : Env) : Nat → Nat → Option Nat
  | 0, t => if env.lockVal t = 0 then some (t + 1) else none
  | f + 1, t => if env.lockVal t = 0 then some (t + 1) else busyWait env f (t + 1)

/-- Outcome of one arrival at the XBEGIN point inside a loop iteration. -/
inductive Out where
  | ret (res : Nat) (rLeft : Nat) (s : St)
  | next (s : St)
  | stuck
  deriving DecidableEq, Repr

/-- The lower half of the loop body of `rte_try_tm` (src/core/tsx.c lines
85-103), reached when the status at the XBEGIN point is not
`RTE_XBEGIN_STARTED`: first the busy-wait on `*lock`, then the abort
classification of the source.  Conflict, or explicit with code
`RTE_XABORT_LOCK_BUSY`, takes the backoff path (`pause_count = ((rte_rdtsc()
& 0x7) | 1) << try_count` with `try_count = RTE_RTM_MAX_RETRIES - retries`)
and continues the loop; otherwise a clear retry bit breaks out of the loop,
and a set retry bit continues the loop with no backoff.  `r` is the value of
`retries` after the pre-body post-decrement of the loop condition. -/
def classify (env : Env) (wF r status : Nat) (s : St) : Out :=
  match busyWait env wF s.reads with
  | none => .stuck
  | some t =>
    let s1 : St := { s with reads := t }
    if status &&& RTE_XABORT_CONFLICT ≠ 0 ∨
        (status &&& RTE_XABORT_EXPLICIT ≠ 0 ∧
          RTE_XABORT_CODE status = RTE_XABORT_LOCK_BUSY) then
      let tryCount := RTE_RTM_MAX_RETRIES - r
      let pauseCount := jitterOf (env.rdtsc s1.ticks) <<< tryCount
      .next { s1 with ticks := s1.ticks + 1, backoffs := s1.backoffs ++ [pauseCount] }
    else if status &&& RTE_XABORT_RETRY = 0 then
      .ret 0 r s1
    else
      .next s1

/-- The body of one iteration of the retry loop of `rte_try_tm`
(src/core/tsx.c lines 75-105), entered with the status delivered at the
XBEGIN point.  `aF` bounds the length of the abort-resume chain at the
XBEGIN point.

If the status is `RTE_XBEGIN_STARTED`, the transactional read of `*lock` is
performed: a nonzero value triggers `rte_xabort(RTE_XABORT_LOCK_BUSY)`,
which does not fall through but resumes at the XBEGIN point with the
hardware-delivered abort status (re-running the `RTE_XBEGIN_STARTED`
comparison); a zero value returns 1.  Otherwise `classify` runs. -/
def handle (env : Env) (wF : Nat) : Nat → Nat → Nat → St → Out
  | aF, r, status, s =>
    if status = RTE_XBEGIN_STARTED then
      let v := env.lockVal s.reads
      let s1 : St := { s with reads := s.reads + 1 }
      if v ≠ 0 then
        match aF with
        | 0 => .stuck
        | aF' + 1 =>
          handle env wF aF' r (env.abortStatus s1.aborts) { s1 with aborts := s1.aborts + 1 }
      else
        .ret 1 r s1
    else
      classify env wF r status s

/-- The retry loop `while (likely(retries--)) { ... }` of `rte_try_tm`
(src/core/tsx.c lines 75-105).  The argument is the value of `retries` at
the loop test; the body runs with the post-decrement value.  On exit the
result carries the C return value, the remaining retries at the exit point,
and the final instrumentation state. -/
def tryTmLoop (env : Env) (wF aF : Nat) : Nat → St → Option (Nat × Nat × St)
  | 0, s => some (0, 0, s)
  | r + 1, s =>
    let s1 : St := { s with iters := s.iters + 1 }
    let status := env.beginResult s1.begins
    let s2 : St := { s1 with begins := s1.begins + 1 }
    match handle env wF aF r status s2 with
    | .stuck => none
    | .ret res rL s3 => some (res, rL, s3)
    | .next s3 => tryTmLoop env wF aF r s3

/-- `int rte_try_tm(int32_t* lock)` (src/core/tsx.c lines 71-106):
`retries` starts at `RTE_RTM_MAX_RETRIES`. -/
def rte_try_tm (env : Env) (wF aF : Nat) : Option (Nat × Nat × St) :=
  tryTmLoop env wF aF RTE_RTM_MAX_RETRIES St.init

/-- `uint64_t __dpdk_rdtsc()` (src/core/rdtsc.c): the RDTSC instruction
delivers the low 32 bits of the counter in EAX and the high 32 bits in EDX;
the union stores them as `lo_32` and `hi_32` and reads back `tsc_64`, which
on the little-endian target is the number whose low 32 bits are `lo_32` and
whose high 32 bits are `hi_32`. -/
def dpdk_rdtsc (lo hi : Nat) : Nat := lo % 2 ^ 32 + hi % 2 ^ 32 * 2 ^ 32

/-! ## Concrete environments for scenarios and counterexamples -/

/-- Scenario A: every XBEGIN starts, the lock flag is always free. -/
def envFree : Env :=
  ⟨fun _ => RTE_XBEGIN_STARTED, fun _ => 0xFF000001, fun _ => 0, fun _ => 0⟩

/-- Scenario B as literally specified: every XBEGIN starts and the lock flag
is nonzero at every read, for the whole run. -/
def envHeld : Env :=
  ⟨fun _ => RTE_XBEGIN_STARTED, fun _ => 0xFF000001, fun _ => 1, fun _ => 0⟩

/-- Scenario B with terminating busy-waits: every XBEGIN starts, the lock
flag is nonzero at every transactional read (the even-indexed reads) and zero
at the busy-wait read that follows each abort (the odd-indexed reads). -/
def envAlt : Env :=
  ⟨fun _ => RTE_XBEGIN_STARTED, fun _ => 0xFF000001,
    fun t => if t % 2 = 0 then 1 else 0, fun _ => 5⟩

/-- Scenario C: every XBEGIN delivers a conflict abort, lock flag free. -/
def envConflict : Env :=
  ⟨fun _ => RTE_XABORT_CONFLICT, fun _ => 0xFF000001, fun _ => 0, fun _ => 5⟩

/-- Scenario D: the first XBEGIN delivers an abort status with no conflict,
no explicit and no retry flag, lock flag free. -/
def envDead : Env :=
  ⟨fun _ => 0, fun _ => 0xFF000001, fun _ => 0, fun _ => 0⟩

/-! ## Lemmas about the busy-wait -/

theorem busyWait_of_zero (env : Env) (t : Nat) (h : env.lockVal t = 0) :
    ∀ f, busyWait env f t = some (t + 1) := by
  intro f
  cases f with
  | zero => simp [busyWait, h]
  | succ f => simp [busyWait, h]

theorem busyWait_lt (env : Env) :
    ∀ f t t', busyWait env f t = some t' → t < t' := by
  intro f
  induction f with
  | zero =>
    intro t t' h
    by_cases h0 : env.lockVal t = 0
    · simp [busyWait, h0] at h
      omega
    · simp [busyWait, h0] at h
  | succ f ih =>
    intro t t' h
    by_cases h0 : env.lockVal t = 0
    · simp [busyWait, h0] at h
      omega
    · simp [busyWait, h0] at h
      have := ih (t + 1) t' h
      omega

theorem busyWait_mono (env : Env) :
    ∀ f f' t t', busyWait env f t = some t' → f ≤ f' →
      busyWait env f' t = some t' := by
  intro f
  induction f with
  | zero =>
    intro f' t t' h _
    by_cases h0 : env.lockVal t = 0
    · simp [busyWait, h0] at h
      subst h
      exact busyWait_of_zero env t h0 f'
    · simp [busyWait, h0] at h
  | succ f ih =>
    intro f' t t' h hle
    by_cases h0 : env.lockVal t = 0
    · simp [busyWait, h0] at h
      subst h
      exact busyWait_of_zero env t h0 f'
    · simp [busyWait, h0] at h
      cases f' with
      | zero => omega
      | succ f'' =>
        have := ih f'' (t + 1) t' h (by omega)
        simp [busyWait, h0, this]

theorem busyWait_reaches (env : Env) :
    ∀ n f t, n ≤ f → env.lockVal (t + n) = 0 →
      ∃ t', busyWait env f t = some t' := by
  intro n
  induction n with
  | zero =>
    intro f t _ h
    exact ⟨t + 1, busyWait_of_zero env t (by simpa using h) f⟩
  | succ n ih =>
    intro f t hle h
    by_cases h0 : env.lockVal t = 0
    · exact ⟨t + 1, busyWait_of_zero env t h0 f⟩
    · cases f with
      | zero => omega
      | succ f =>
        obtain ⟨t', ht⟩ :=
          ih f (t + 1) (by omega) (by rw [show t + 1 + n = t + (n + 1) by omega]; exact h)
        exact ⟨t', by simp [busyWait, h0, ht]⟩

/-! ## Equation lemmas for handle and tryTmLoop -/

theorem handle_notStarted (env : Env) (wF aF r status : Nat) (s : St)
    (hst : status ≠ RTE_XBEGIN_STARTED) :
    handle env wF aF r status s = classify env wF r status s := by
  conv_lhs => rw [handle]
  simp [hst]

theorem handle_started_free (env : Env) (wF aF r : Nat) (s : St)
    (hv : env.lockVal s.reads = 0) :
    handle env wF aF r RTE_XBEGIN_STARTED s =
      Out.ret 1 r { s with reads := s.reads + 1 } := by
  conv_lhs => rw [handle]
  simp [hv]

theorem handle_started_busy (env : Env) (wF aF r : Nat) (s : St)
    (hv : env.lockVal s.reads ≠ 0) :
    handle env wF (aF + 1) r RTE_XBEGIN_STARTED s =
      handle env wF aF r (env.abortStatus s.aborts)
        { s with reads := s.reads + 1, aborts := s.aborts + 1 } := by
  conv_lhs => rw [handle]
  simp [hv]

theorem handle_started_busy_zero (env : Env) (wF r : Nat) (s : St)
    (hv : env.lockVal s.reads ≠ 0) :
    handle env wF 0 r RTE_XBEGIN_STARTED s = Out.stuck := by
  conv_lhs => rw [handle]
  simp [hv]

theorem tryTmLoop_succ (env : Env) (wF aF r : Nat) (s : St) :
    tryTmLoop env wF aF (r + 1) s =
      match handle env wF aF r (env.beginResult s.begins)
          { s with iters := s.iters + 1, begins := s.begins + 1 } with
      | .stuck => none
      | .ret res rL s3 => some (res, rL, s3)
      | .next s3 => tryTmLoop env wF aF r s3 := by
  simp [tryTmLoop]

/-! ## Case analyses -/

theorem classify_cases (env : Env) (wF r status : Nat) (s : St) :
    classify env wF r status s = Out.stuck ∨
    (∃ s', classify env wF r status s = Out.next s' ∧
      s'.writes = s.writes ∧ s'.begins = s.begins ∧ s'.iters = s.iters ∧
      s'.aborts = s.aborts ∧ s.reads < s'.reads) ∨
    (∃ s', classify env wF r status s = Out.ret 0 r s' ∧
      s'.writes = s.writes ∧ s'.begins = s.begins ∧ s'.iters = s.iters ∧
      s'.aborts = s.aborts ∧ s.reads < s'.reads) := by
  cases hbw : busyWait env wF s.reads with
  | none =>
    left
    simp [classify, hbw]
  | some t =>
    have hlt := busyWait_lt env wF s.reads t hbw
    by_cases hcl : status &&& RTE_XABORT_CONFLICT ≠ 0 ∨
        (status &&& RTE_XABORT_EXPLICIT ≠ 0 ∧
          RTE_XABORT_CODE status = RTE_XABORT_LOCK_BUSY)
    · right; left
      exact ⟨{ s with reads := t, ticks := s.ticks + 1, backoffs := s.backoffs ++ [jitterOf (env.rdtsc s.ticks) <<< (RTE_RTM_MAX_RETRIES - r)] },
        by simp [classify, hbw, hcl], rfl, rfl, rfl, rfl, hlt⟩
    · by_cases hr : status &&& RTE_XABORT_RETRY = 0
      · right; right
        exact ⟨{ s with reads := t },
          by simp [classify, hbw, hcl, hr], rfl, rfl, rfl, rfl, hlt⟩
      · right; left
        exact ⟨{ s with reads := t },
          by simp [classify, hbw, hcl, hr], rfl, rfl, rfl, rfl, hlt⟩

theorem handle_cases (env : Env) (wF : Nat) : ∀ aF r status (s : St),
    handle env wF aF r status s = Out.stuck ∨
    (∃ s', handle env wF aF r status s = Out.next s' ∧
      s'.writes = s.writes ∧ s'.begins = s.begins ∧ s'.iters = s.iters ∧
      s.reads < s'.reads) ∨
    (∃ res s', handle env wF aF r status s = Out.ret res r s' ∧
      s'.writes = s.writes ∧ s'.begins = s.begins ∧ s'.iters = s.iters ∧
      s.reads < s'.reads ∧ (res = 0 ∨ res = 1) ∧
      (res = 1 → 0 < s'.reads ∧ env.lockVal (s'.reads - 1) = 0)) := by
  intro aF
  induction aF with
  | zero =>
    intro r status s
    by_cases hst : status = RTE_XBEGIN_STARTED
    · subst hst
      by_cases hv : env.lockVal s.reads = 0
      · right; right
        refine ⟨1, { s with reads := s.reads + 1 },
          handle_started_free env wF 0 r s hv, rfl, rfl, rfl,
          Nat.lt_succ_self s.reads, Or.inr rfl,
          fun _ => ⟨Nat.succ_pos s.reads, by simpa using hv⟩⟩
      · left
        exact handle_started_busy_zero env wF r s hv
    · rw [handle_notStarted env wF 0 r status s hst]
      rcases classify_cases env wF r status s with hc | ⟨s', hc, hw, hb, hi, _, hr⟩ |
        ⟨s', hc, hw, hb, hi, _, hr⟩
      · left; exact hc
      · right; left; exact ⟨s', hc, hw, hb, hi, hr⟩
      · right; right
        exact ⟨0, s', hc, hw, hb, hi, hr, Or.inl rfl, by simp⟩
  | succ aF ih =>
    intro r status s
    by_cases hst : status = RTE_XBEGIN_STARTED
    · subst hst
      by_cases hv : env.lockVal s.reads = 0
      · right; right
        refine ⟨1, { s with reads := s.reads + 1 },
          handle_started_free env wF (aF + 1) r s hv, rfl, rfl, rfl,
          Nat.lt_succ_self s.reads, Or.inr rfl,
          fun _ => ⟨Nat.succ_pos s.reads, by simpa using hv⟩⟩
      · rw [handle_started_busy env wF aF r s hv]
        rcases ih r (env.abortStatus s.aborts)
            { s with reads := s.reads + 1, aborts := s.aborts + 1 } with
          hc | ⟨s', hc, hw, hb, hi, hr⟩ | ⟨res, s', hc, hw, hb, hi, hr, hres, hlk⟩
        · left; exact hc
        · right; left
          simp at hw hb hi hr
          exact ⟨s', hc, hw, hb, hi, by omega⟩
        · right; right
          simp at hw hb hi hr
          exact ⟨res, s', hc, hw, hb, hi, by omega, hres, hlk⟩
    · rw [handle_notStarted env wF (aF + 1) r status s hst]
      rcases classify_cases env wF r status s with hc | ⟨s', hc, hw, hb, hi, _, hr⟩ |
        ⟨s', hc, hw, hb, hi, _, hr⟩
      · left; exact hc
      · right; left; exact ⟨s', hc, hw, hb, hi, hr⟩
      · right; right
        exact ⟨0, s', hc, hw, hb, hi, hr, Or.inl rfl, by simp⟩

/-- Run-level invariant of the retry loop: the result is 0 or 1, the
primitive performs no store to the lock flag, the retry counter is
decremented exactly once per iteration entered (`s'.iters + rL = s.iters +
r`), each iteration executes XBEGIN exactly once, reads only move forward,
and a result of 1 means the last lock read (the transactional one) was 0. -/
theorem tryTmLoop_inv (env : Env) (wF aF : Nat) : ∀ r (s : St) res rL s',
    tryTmLoop env wF aF r s = some (res, rL, s') →
    (res = 0 ∨ res = 1) ∧ s'.writes = s.writes ∧
    s'.iters + rL = s.iters + r ∧ s.iters ≤ s'.iters ∧
    s'.begins + s.iters = s.begins + s'.iters ∧ s.reads ≤ s'.reads ∧
    (res = 1 → 0 < s'.reads ∧ env.lockVal (s'.reads - 1) = 0) := by
  intro r
  induction r with
  | zero =>
    intro s res rL s' h
    simp [tryTmLoop] at h
    obtain ⟨h1, h2, h3⟩ := h
    subst h1; subst h2; subst h3
    simp
  | succ r ih =>
    intro s res rL s' h
    rw [tryTmLoop_succ] at h
    rcases handle_cases env wF aF r (env.beginResult s.begins)
        { s with iters := s.iters + 1, begins := s.begins + 1 } with
      hc | ⟨s3, hc, hw, hb, hi, hr⟩ | ⟨res0, s3, hc, hw, hb, hi, hr, hres, hlk⟩
    · rw [hc] at h; simp at h
    · rw [hc] at h
      simp only at h
      have hrec := ih s3 res rL s' h
      obtain ⟨q1, q2, q3, q4, q5, q6, q7⟩ := hrec
      simp at hw hb hi hr
      refine ⟨q1, ?_, ?_, ?_, ?_, ?_, q7⟩ <;> omega
    · rw [hc] at h
      simp only [Option.some.injEq, Prod.mk.injEq] at h
      obtain ⟨h1, h2, h3⟩ := h
      subst h1; subst h2; subst h3
      simp at hw hb hi hr
      refine ⟨hres, ?_, ?_, ?_, ?_, ?_, hlk⟩ <;> omega

/-! ## Branch equations for classify -/

theorem classify_break (env : Env) (wF r status : Nat) (s : St)
    (hc : status &&& RTE_XABORT_CONFLICT = 0)
    (he : ¬(status &&& RTE_XABORT_EXPLICIT ≠ 0 ∧
      RTE_XABORT_CODE status = RTE_XABORT_LOCK_BUSY))
    (hr : status &&& RTE_XABORT_RETRY = 0)
    (hl : env.lockVal s.reads = 0) :
    classify env wF r status s = Out.ret 0 r { s with reads := s.reads + 1 } := by
  have hbw := busyWait_of_zero env s.reads hl wF
  simp [classify, hbw, hc, he, hr]

theorem classify_backoff (env : Env) (wF r status : Nat) (s : St)
    (hcl : status &&& RTE_XABORT_CONFLICT ≠ 0 ∨
      (status &&& RTE_XABORT_EXPLICIT ≠ 0 ∧
        RTE_XABORT_CODE status = RTE_XABORT_LOCK_BUSY))
    (hl : env.lockVal s.reads = 0) :
    classify env wF r status s = Out.next { s with reads := s.reads + 1, ticks := s.ticks + 1, backoffs := s.backoffs ++ [jitterOf (env.rdtsc s.ticks) <<< (RTE_RTM_MAX_RETRIES - r)] } := by
  have hbw := busyWait_of_zero env s.reads hl wF
  simp [classify, hbw, hcl]

/-! ## Fuel monotonicity -/

theorem classify_mono (env : Env) (wF wF' r status : Nat) (s : St) (o : Out)
    (h : classify env wF r status s = o) (ho : o ≠ Out.stuck) (hle : wF ≤ wF') :
    classify env wF' r status s = o := by
  cases hbw : busyWait env wF s.reads with
  | none =>
    simp only [classify, hbw] at h
    subst h
    exact absurd rfl ho
  | some t =>
    have hb' := busyWait_mono env wF wF' s.reads t hbw hle
    simp only [classify, hbw] at h
    simp only [classify, hb']
    exact h

theorem handle_mono (env : Env) (wF wF' : Nat) : ∀ aF r status (s : St) (o : Out),
    handle env wF aF r status s = o → o ≠ Out.stuck → wF ≤ wF' →
    handle env wF' aF r status s = o := by
  intro aF
  induction aF with
  | zero =>
    intro r status s o h ho hle
    by_cases hst : status = RTE_XBEGIN_STARTED
    · subst hst
      by_cases hv : env.lockVal s.reads = 0
      · rw [handle_started_free env wF 0 r s hv] at h
        rw [handle_started_free env wF' 0 r s hv]
        exact h
      · rw [handle_started_busy_zero env wF r s hv] at h
        subst h
        exact absurd rfl ho
    · rw [handle_notStarted env wF 0 r status s hst] at h
      rw [handle_notStarted env wF' 0 r status s hst]
      exact classify_mono env wF wF' r status s o h ho hle
  | succ aF ih =>
    intro r status s o h ho hle
    by_cases hst : status = RTE_XBEGIN_STARTED
    · subst hst
      by_cases hv : env.lockVal s.reads = 0
      · rw [handle_started_free env wF (aF + 1) r s hv] at h
        rw [handle_started_free env wF' (aF + 1) r s hv]
        exact h
      · rw [handle_started_busy env wF aF r s hv] at h
        rw [handle_started_busy env wF' aF r s hv]
        exact ih r _ _ o h ho hle
    · rw [handle_notStarted env wF (aF + 1) r status s hst] at h
      rw [handle_notStarted env wF' (aF + 1) r status s hst]
      exact classify_mono env wF wF' r status s o h ho hle

theorem tryTmLoop_mono (env : Env) (wF wF' aF : Nat) : ∀ r (s : St) out,
    tryTmLoop env wF aF r s = some out → wF ≤ wF' →
    tryTmLoop env wF' aF r s = some out := by
  intro r
  induction r with
  | zero =>
    intro s out h _
    simp [tryTmLoop] at h ⊢
    exact h
  | succ r ih =>
    intro s out h hle
    rw [tryTmLoop_succ] at h ⊢
    cases hh : handle env wF aF r (env.beginResult s.begins)
        { s with iters := s.iters + 1, begins := s.begins + 1 } with
    | stuck =>
      rw [hh] at h
      simp at h
    | ret res rL s3 =>
      rw [handle_mono env wF wF' aF r _ _ _ hh (by simp) hle]
      rw [hh] at h
      exact h
    | next s3 =>
      rw [handle_mono env wF wF' aF r _ _ _ hh (by simp) hle]
      rw [hh] at h
      simp only at h ⊢
      exact ih s3 out h hle

/-! ## Termination when the busy-waits can terminate -/

theorem classify_not_stuck (env : Env) (r status : Nat) (s : St)
    (H : ∀ t, ∃ n, env.lockVal (t + n) = 0) :
    ∃ wF, classify env wF r status s ≠ Out.stuck := by
  obtain ⟨n, hn⟩ := H s.reads
  obtain ⟨t', ht⟩ := busyWait_reaches env n n s.reads (le_refl n) hn
  refine ⟨n, ?_⟩
  simp only [classify, ht]
  split
  · simp
  · split
    · simp
    · simp

theorem handle_not_stuck (env : Env)
    (H : ∀ t, ∃ n, env.lockVal (t + n) = 0)
    (HA : ∀ n, env.abortStatus n ≠ RTE_XBEGIN_STARTED) (r status : Nat) (s : St) :
    ∃ wF, handle env wF 1 r status s ≠ Out.stuck := by
  by_cases hst : status = RTE_XBEGIN_STARTED
  · subst hst
    by_cases hv : env.lockVal s.reads = 0
    · exact ⟨0, by rw [handle_started_free env 0 1 r s hv]; simp⟩
    · obtain ⟨wF, hcs⟩ := classify_not_stuck env r (env.abortStatus s.aborts)
        { s with reads := s.reads + 1, aborts := s.aborts + 1 } H
      refine ⟨wF, ?_⟩
      rw [handle_started_busy env wF 0 r s hv,
        handle_notStarted env wF 0 r _ _ (HA s.aborts)]
      exact hcs
  · obtain ⟨wF, hcs⟩ := classify_not_stuck env r status s H
    refine ⟨wF, ?_⟩
    rw [handle_notStarted env wF 1 r status s hst]
    exact hcs

theorem tryTmLoop_exists (env : Env)
    (H : ∀ t, ∃ n, env.lockVal (t + n) = 0)
    (HA : ∀ n, env.abortStatus n ≠ RTE_XBEGIN_STARTED) : ∀ r (s : St),
    ∃ wF out, tryTmLoop env wF 1 r s = some out := by
  intro r
  induction r with
  | zero =>
    intro s
    exact ⟨0, (0, 0, s), by simp [tryTmLoop]⟩
  | succ r ih =>
    intro s
    obtain ⟨wF1, hns⟩ := handle_not_stuck env H HA r (env.beginResult s.begins)
      { s with iters := s.iters + 1, begins := s.begins + 1 }
    cases hh : handle env wF1 1 r (env.beginResult s.begins)
        { s with iters := s.iters + 1, begins := s.begins + 1 } with
    | stuck => exact absurd hh hns
    | ret res rL s3 =>
      refine ⟨wF1, (res, rL, s3), ?_⟩
      rw [tryTmLoop_succ, hh]
    | next s3 =>
      obtain ⟨wF2, out, h2⟩ := ih s3
      refine ⟨max wF1 wF2, out, ?_⟩
      rw [tryTmLoop_succ,
        handle_mono env wF1 (max wF1 wF2) 1 r _ _ _ hh (by simp) (le_max_left _ _)]
      exact tryTmLoop_mono env wF2 (max wF1 wF2) 1 r s3 out h2 (le_max_right _ _)

/-! ## The permanently-held flag makes the busy-wait spin forever -/

theorem busyWait_envHeld (f t : Nat) : busyWait envHeld f t = none := by
  induction f generalizing t with
  | zero => simp [busyWait, envHeld]
  | succ f ih =>
    simp only [busyWait]
    rw [if_neg (by simp [envHeld])]
    exact ih (t + 1)

theorem handle_envHeld_stuck (wF : Nat) : ∀ aF r status (s : St),
    handle envHeld wF aF r status s = Out.stuck := by
  intro aF
  induction aF with
  | zero =>
    intro r status s
    by_cases hst : status = RTE_XBEGIN_STARTED
    · subst hst
      exact handle_started_busy_zero envHeld wF r s (by simp [envHeld])
    · rw [handle_notStarted envHeld wF 0 r status s hst]
      simp [classify, busyWait_envHeld]
  | succ aF ih =>
    intro r status s
    by_cases hst : status = RTE_XBEGIN_STARTED
    · subst hst
      rw [handle_started_busy envHeld wF aF r s (by simp [envHeld])]
      exact ih r _ _
    · rw [handle_notStarted envHeld wF (aF + 1) r status s hst]
      simp [classify, busyWait_envHeld]

/-! ## The jitter term -/

theorem jitterOf_cases (c : Nat) :
    jitterOf c = 1 ∨ jitterOf c = 3 ∨ jitterOf c = 5 ∨ jitterOf c = 7 := by
  unfold jitterOf
  generalize hg : c &&& 0x7 = m
  have h8 : m ≤ 7 := by rw [← hg]; exact Nat.and_le_right
  interval_cases m <;> decide

theorem jitterOf_pos (c : Nat) : 0 < jitterOf c := by
  rcases jitterOf_cases c with h | h | h | h <;> omega

/-! ## All-aborting runs with terminating busy-waits -/

theorem tryTmLoop_allAborts (env : Env) (wF aF : Nat)
    (hb : ∀ n, env.beginResult n = RTE_XBEGIN_STARTED)
    (hl0 : ∀ t, t % 2 = 0 → env.lockVal t ≠ 0)
    (hl1 : ∀ t, t % 2 = 1 → env.lockVal t = 0)
    (ha : ∀ n, env.abortStatus n ≠ RTE_XBEGIN_STARTED)
    (hae : ∀ n, env.abortStatus n &&& RTE_XABORT_EXPLICIT ≠ 0 ∧
      RTE_XABORT_CODE (env.abortStatus n) = RTE_XABORT_LOCK_BUSY) :
    ∀ r (s : St), s.reads % 2 = 0 →
      ∃ s', tryTmLoop env wF (aF + 1) r s = some (0, 0, s') ∧
        s'.iters = s.iters + r ∧ s'.begins = s.begins + r ∧
        s'.aborts = s.aborts + r ∧ s'.backoffs.length = s.backoffs.length + r := by
  intro r
  induction r with
  | zero =>
    intro s _
    exact ⟨s, by simp [tryTmLoop], rfl, rfl, rfl, rfl⟩
  | succ r ih =>
    intro s hs
    rw [tryTmLoop_succ, show env.beginResult s.begins = RTE_XBEGIN_STARTED from hb s.begins,
      handle_started_busy env wF aF r { s with iters := s.iters + 1, begins := s.begins + 1 }
        (hl0 s.reads hs),
      handle_notStarted env wF aF r _ _ (ha _),
      classify_backoff env wF r _ _ (Or.inr (hae _)) (hl1 (s.reads + 1) (by omega))]
    obtain ⟨s', h', hi, hbg, hab, hbk⟩ :=
      ih { s with reads := s.reads + 1 + 1, begins := s.begins + 1, aborts := s.aborts + 1, ticks := s.ticks + 1, iters := s.iters + 1, backoffs := s.backoffs ++ [jitterOf (env.rdtsc s.ticks) <<< (RTE_RTM_MAX_RETRIES - r)] }
        (by simp; omega)
    refine ⟨s', h', ?_, ?_, ?_, ?_⟩ <;> simp at hi hbg hab hbk <;> omega

/-! ## Claims -/

/-- C1: if the lock flag reads 0 and the first XBEGIN delivers
`RTE_XBEGIN_STARTED`, `rte_try_tm` returns 1 (Entered) after exactly one
transaction-primitive execution (one XBEGIN, no XABORT), with zero retries
consumed (19 of the 20 remain past the single pre-body decrement, one
iteration entered, no backoff). -/
theorem tryEnter_firstStarted_entered (env : Env) (wF aF : Nat)
    (hb : env.beginResult 0 = RTE_XBEGIN_STARTED) (hl : env.lockVal 0 = 0) :
    rte_try_tm env wF aF = some (1, 19, ⟨1, 1, 0, 0, 1, 0, []⟩) := by
  rw [rte_try_tm, show RTE_RTM_MAX_RETRIES = 19 + 1 from rfl, tryTmLoop_succ,
    show env.beginResult St.init.begins = RTE_XBEGIN_STARTED from hb,
    handle_started_free env wF aF 19
      { St.init with iters := St.init.iters + 1, begins := St.init.begins + 1 } hl]
  rfl

theorem tryEnter_firstStarted_entered_spot :
    rte_try_tm envFree 0 0 = some (1, 19, ⟨1, 1, 0, 0, 1, 0, []⟩) :=
  tryEnter_firstStarted_entered envFree 0 0 rfl rfl

/-- C4: an abort status with the conflict flag clear, not explicit with code
`RTE_XABORT_LOCK_BUSY`, and the retry hint clear, breaks out of the loop at
once: for any remaining retries `r + 1` the loop returns 0 (MustFallback)
with `r` retries still remaining after a single iteration, and when such a
status arrives on the very first XBEGIN the whole call ends on iteration 1
with 19 retries remaining. -/
theorem tryEnter_nonRetryable_breaks (env : Env) (wF aF : Nat)
    (h1 : env.beginResult 0 ≠ RTE_XBEGIN_STARTED)
    (h2 : env.beginResult 0 &&& RTE_XABORT_CONFLICT = 0)
    (h3 : ¬(env.beginResult 0 &&& RTE_XABORT_EXPLICIT ≠ 0 ∧
      RTE_XABORT_CODE (env.beginResult 0) = RTE_XABORT_LOCK_BUSY))
    (h4 : env.beginResult 0 &&& RTE_XABORT_RETRY = 0)
    (h5 : env.lockVal 0 = 0) :
    rte_try_tm env wF aF = some (0, 19, ⟨1, 1, 0, 0, 1, 0, []⟩) ∧
    (∀ r (s : St), env.beginResult s.begins ≠ RTE_XBEGIN_STARTED →
      env.beginResult s.begins &&& RTE_XABORT_CONFLICT = 0 →
      ¬(env.beginResult s.begins &&& RTE_XABORT_EXPLICIT ≠ 0 ∧
        RTE_XABORT_CODE (env.beginResult s.begins) = RTE_XABORT_LOCK_BUSY) →
      env.beginResult s.begins &&& RTE_XABORT_RETRY = 0 →
      env.lockVal s.reads = 0 →
      tryTmLoop env wF aF (r + 1) s =
        some (0, r, { s with iters := s.iters + 1, begins := s.begins + 1, reads := s.reads + 1 })) := by
  have main : ∀ r (s : St), env.beginResult s.begins ≠ RTE_XBEGIN_STARTED →
      env.beginResult s.begins &&& RTE_XABORT_CONFLICT = 0 →
      ¬(env.beginResult s.begins &&& RTE_XABORT_EXPLICIT ≠ 0 ∧
        RTE_XABORT_CODE (env.beginResult s.begins) = RTE_XABORT_LOCK_BUSY) →
      env.beginResult s.begins &&& RTE_XABORT_RETRY = 0 →
      env.lockVal s.reads = 0 →
      tryTmLoop env wF aF (r + 1) s =
        some (0, r, { s with iters := s.iters + 1, begins := s.begins + 1, reads := s.reads + 1 }) := by
    intro r s hst hc he hr hl
    rw [tryTmLoop_succ, handle_notStarted env wF aF r _ _ hst,
      classify_break env wF r (env.beginResult s.begins)
        { s with iters := s.iters + 1, begins := s.begins + 1 } hc he hr hl]
  refine ⟨?_, main⟩
  have h := main 19 St.init h1 h2 h3 h4 h5
  rw [rte_try_tm, show RTE_RTM_MAX_RETRIES = 19 + 1 from rfl, h]
  rfl

theorem tryEnter_nonRetryable_breaks_spot :
    rte_try_tm envDead 0 0 = some (0, 19, ⟨1, 1, 0, 0, 1, 0, []⟩) :=
  (tryEnter_nonRetryable_breaks envDead 0 0 (by decide) (by decide) (by decide)
    (by decide) rfl).1

/-- C5: an abort status with the conflict flag set, or explicit with code
`RTE_XABORT_LOCK_BUSY`, is a transient retryable failure: the iteration
computes and records the backoff pause count and continues the loop,
consuming exactly one retry; the retry-hint flag is not consulted (no
hypothesis on it appears). -/
theorem tryEnter_transient_backoff_continues (env : Env) (wF aF r : Nat) (s : St)
    (hst : env.beginResult s.begins ≠ RTE_XBEGIN_STARTED)
    (hcl : env.beginResult s.begins &&& RTE_XABORT_CONFLICT ≠ 0 ∨
      (env.beginResult s.begins &&& RTE_XABORT_EXPLICIT ≠ 0 ∧
        RTE_XABORT_CODE (env.beginResult s.begins) = RTE_XABORT_LOCK_BUSY))
    (hl : env.lockVal s.reads = 0) :
    tryTmLoop env wF aF (r + 1) s =
      tryTmLoop env wF aF r { s with reads := s.reads + 1, begins := s.begins + 1, ticks := s.ticks + 1, iters := s.iters + 1, backoffs := s.backoffs ++ [jitterOf (env.rdtsc s.ticks) <<< (RTE_RTM_MAX_RETRIES - r)] } := by
  rw [tryTmLoop_succ, handle_notStarted env wF aF r _ _ hst,
    classify_backoff env wF r (env.beginResult s.begins)
      { s with iters := s.iters + 1, begins := s.begins + 1 } hcl hl]

theorem tryEnter_transient_backoff_continues_spot :
    tryTmLoop envConflict 0 0 1 St.init =
      tryTmLoop envConflict 0 0 0 { St.init with reads := 1, begins := 1, ticks := 1, iters := 1, backoffs := [jitterOf (envConflict.rdtsc 0) <<< RTE_RTM_MAX_RETRIES] } :=
  tryEnter_transient_backoff_continues envConflict 0 0 0 St.init (by decide)
    (by decide) rfl

/-- C6: on every backoff iteration the recorded pause count is exactly
`jitter <<< tryCount` with `tryCount = RTE_RTM_MAX_RETRIES - r`, `r` being
the retries remaining after the pre-body decrement; and for a fixed cycle
value the pause count is strictly monotonically increasing in the try
count. -/
theorem backoff_pause_eq_shift_and_mono :
    (∀ (env : Env) (wF aF r status : Nat) (s : St),
      status ≠ RTE_XBEGIN_STARTED →
      (status &&& RTE_XABORT_CONFLICT ≠ 0 ∨
        (status &&& RTE_XABORT_EXPLICIT ≠ 0 ∧
          RTE_XABORT_CODE status = RTE_XABORT_LOCK_BUSY)) →
      env.lockVal s.reads = 0 →
      handle env wF aF r status s = Out.next { s with reads := s.reads + 1, ticks := s.ticks + 1, backoffs := s.backoffs ++ [jitterOf (env.rdtsc s.ticks) <<< (RTE_RTM_MAX_RETRIES - r)] }) ∧
    (∀ c t1 t2, t1 < t2 → jitterOf c <<< t1 < jitterOf c <<< t2) := by
  constructor
  · intro env wF aF r status s hst hcl hl
    rw [handle_notStarted env wF aF r status s hst]
    exact classify_backoff env wF r status s hcl hl
  · intro c t1 t2 h
    rw [Nat.shiftLeft_eq, Nat.shiftLeft_eq]
    exact Nat.mul_lt_mul_of_pos_left
      (Nat.pow_lt_pow_right (by norm_num) h) (jitterOf_pos c)

theorem backoff_pause_eq_shift_and_mono_spot :
    handle envConflict 0 0 0 RTE_XABORT_CONFLICT St.init =
      Out.next { St.init with reads := 1, ticks := 1, backoffs := [jitterOf (envConflict.rdtsc 0) <<< RTE_RTM_MAX_RETRIES] } ∧
    jitterOf 5 <<< 3 < jitterOf 5 <<< 4 :=
  ⟨backoff_pause_eq_shift_and_mono.1 envConflict 0 0 0 RTE_XABORT_CONFLICT St.init
      (by decide) (by decide) rfl,
    backoff_pause_eq_shift_and_mono.2 5 3 4 (by decide)⟩

/-- C7: for every 64-bit cycle value the jitter `(c &&& 0x7) ||| 1` lies in
{1, 3, 5, 7}; in particular it is odd and nonzero. -/
theorem jitter_odd_small (c : Nat) (_hc : c < 2 ^ 64) :
    (jitterOf c = 1 ∨ jitterOf c = 3 ∨ jitterOf c = 5 ∨ jitterOf c = 7) ∧
    jitterOf c % 2 = 1 ∧ jitterOf c ≠ 0 := by
  refine ⟨jitterOf_cases c, ?_, ?_⟩ <;>
    rcases jitterOf_cases c with h | h | h | h <;> omega

theorem jitter_odd_small_spot :
    ((jitterOf 6 = 1 ∨ jitterOf 6 = 3 ∨ jitterOf 6 = 5 ∨ jitterOf 6 = 7) ∧
      jitterOf 6 % 2 = 1 ∧ jitterOf 6 ≠ 0) :=
  jitter_odd_small 6 (by decide)

/-- C2: for every scripted sequence of XBEGIN statuses and every lock-flag
behaviour under which each busy-wait can observe a zero (and with the
hardware contract that an abort never resumes as Started), `rte_try_tm`
terminates with result 0 or 1, executes XBEGIN at most
`RTE_RTM_MAX_RETRIES` (20) times — exactly once per iteration entered — and
the retry counter, started at 20 and decremented exactly once per iteration
before the body, satisfies `iterations + remaining = 20` at exit. -/
theorem tryEnter_bounded_terminates (env : Env)
    (HL : ∀ t, ∃ n, env.lockVal (t + n) = 0)
    (HA : ∀ n, env.abortStatus n ≠ RTE_XBEGIN_STARTED) :
    ∃ wF res rL s, rte_try_tm env wF 1 = some (res, rL, s) ∧
      (res = 0 ∨ res = 1) ∧ s.begins ≤ RTE_RTM_MAX_RETRIES ∧
      s.begins = s.iters ∧ s.iters + rL = RTE_RTM_MAX_RETRIES := by
  obtain ⟨wF, ⟨res, rL, s⟩, h⟩ := tryTmLoop_exists env HL HA RTE_RTM_MAX_RETRIES St.init
  obtain ⟨q1, q2, q3, q4, q5, q6, q7⟩ :=
    tryTmLoop_inv env wF 1 RTE_RTM_MAX_RETRIES St.init res rL s h
  have e1 : St.init.iters = 0 := rfl
  have e2 : St.init.begins = 0 := rfl
  exact ⟨wF, res, rL, s, h, q1, by omega, by omega, by omega⟩

theorem tryEnter_bounded_terminates_spot :
    ∃ wF res rL s, rte_try_tm envFree wF 1 = some (res, rL, s) ∧
      (res = 0 ∨ res = 1) ∧ s.begins ≤ RTE_RTM_MAX_RETRIES ∧
      s.begins = s.iters ∧ s.iters + rL = RTE_RTM_MAX_RETRIES :=
  tryEnter_bounded_terminates envFree (fun t => ⟨0, rfl⟩)
    (fun n => by simp only [envFree]; decide)

/-- C3, counterexample to the claim as stated: if the lock flag is nonzero
for the entire run (every read observes a nonzero value) and every XBEGIN
delivers Started, `rte_try_tm` never returns at all — after the first
explicit abort the inner `while (*lock)` busy-wait spins forever — so in
particular it does not return MustFallback after 20 iterations. -/
theorem tryEnter_flagAlwaysHeld_no_return :
    ¬ ∃ wF aF out, rte_try_tm envHeld wF aF = some out := by
  rintro ⟨wF, aF, out, h⟩
  rw [rte_try_tm, show RTE_RTM_MAX_RETRIES = 19 + 1 from rfl, tryTmLoop_succ,
    handle_envHeld_stuck wF aF 19 _ _] at h
  simp at h

/-- C3, amended: if every XBEGIN delivers Started, the lock flag is nonzero
at every transactional read (the even-indexed reads) but the busy-wait after
each abort observes zero (the odd-indexed reads), and each hardware abort
status carries the explicit flag with code `RTE_XABORT_LOCK_BUSY` (and is
not the Started sentinel), then every iteration observes the flag, aborts
with code 0xFF, and consumes exactly one retry, and `rte_try_tm` returns 0
(MustFallback) after exactly 20 iterations: 20 XBEGINs, 20 XABORTs, and 20
backoffs. -/
theorem tryEnter_lockBusy_twentyAborts (env : Env) (wF aF : Nat)
    (hb : ∀ n, env.beginResult n = RTE_XBEGIN_STARTED)
    (hl0 : ∀ t, t % 2 = 0 → env.lockVal t ≠ 0)
    (hl1 : ∀ t, t % 2 = 1 → env.lockVal t = 0)
    (ha : ∀ n, env.abortStatus n ≠ RTE_XBEGIN_STARTED)
    (hae : ∀ n, env.abortStatus n &&& RTE_XABORT_EXPLICIT ≠ 0 ∧
      RTE_XABORT_CODE (env.abortStatus n) = RTE_XABORT_LOCK_BUSY) :
    ∃ s, rte_try_tm env wF (aF + 1) = some (0, 0, s) ∧
      s.iters = RTE_RTM_MAX_RETRIES ∧ s.begins = RTE_RTM_MAX_RETRIES ∧
      s.aborts = RTE_RTM_MAX_RETRIES ∧ s.backoffs.length = RTE_RTM_MAX_RETRIES := by
  obtain ⟨s', h', hi, hbg, hab, hbk⟩ :=
    tryTmLoop_allAborts env wF aF hb hl0 hl1 ha hae RTE_RTM_MAX_RETRIES St.init rfl
  exact ⟨s', h', by simpa using hi, by simpa using hbg, by simpa using hab,
    by simpa using hbk⟩

theorem tryEnter_lockBusy_twentyAborts_spot :
    ∃ s, rte_try_tm envAlt 0 1 = some (0, 0, s) ∧
      s.iters = RTE_RTM_MAX_RETRIES ∧ s.begins = RTE_RTM_MAX_RETRIES ∧
      s.aborts = RTE_RTM_MAX_RETRIES ∧ s.backoffs.length = RTE_RTM_MAX_RETRIES :=
  tryEnter_lockBusy_twentyAborts envAlt 0 0 (fun n => rfl)
    (fun t ht => by simp [envAlt, ht])
    (fun t ht => by simp [envAlt, ht])
    (fun n => by simp only [envAlt]; decide) (fun n => by simp only [envAlt]; decide)

/-- C8: `rte_try_tm` never stores to the shared lock flag: the count of
stores to `*lock` performed by the primitive is zero in every completed
run (and no step of the embedding increments it, mirroring the absence of
any assignment through `lock` in the source). -/
theorem tryEnter_never_writes_lock (env : Env) (wF aF res rL : Nat) (s : St)
    (h : rte_try_tm env wF aF = some (res, rL, s)) : s.writes = 0 := by
  have hinv := tryTmLoop_inv env wF aF RTE_RTM_MAX_RETRIES St.init res rL s h
  exact hinv.2.1

theorem tryEnter_never_writes_lock_spot :
    (⟨1, 1, 0, 0, 1, 0, []⟩ : St).writes = 0 :=
  tryEnter_never_writes_lock envFree 0 0 1 19 ⟨1, 1, 0, 0, 1, 0, []⟩ (by decide)

/-- C9: `__dpdk_rdtsc` combines the two 32-bit halves delivered by RDTSC
into `hi * 2^32 + lo`: the low half occupies the low 32 bits, the high half
the high 32 bits, and the result fits in 64 bits. -/
theorem dpdk_rdtsc_combines (lo hi : Nat) (hlo : lo < 2 ^ 32) (hhi : hi < 2 ^ 32) :
    dpdk_rdtsc lo hi = hi * 2 ^ 32 + lo ∧
    dpdk_rdtsc lo hi >>> 32 = hi ∧
    dpdk_rdtsc lo hi &&& (2 ^ 32 - 1) = lo ∧
    dpdk_rdtsc lo hi < 2 ^ 64 := by
  have h1 : dpdk_rdtsc lo hi = hi * 2 ^ 32 + lo := by
    unfold dpdk_rdtsc
    rw [Nat.mod_eq_of_lt hlo, Nat.mod_eq_of_lt hhi]
    ring
  refine ⟨h1, ?_, ?_, ?_⟩
  · rw [h1, Nat.shiftRight_eq_div_pow, Nat.mul_comm,
      Nat.mul_add_div (Nat.two_pow_pos 32), Nat.div_eq_of_lt hlo]
    omega
  · rw [h1, Nat.and_pow_two_sub_one_eq_mod, Nat.mul_comm, Nat.mul_add_mod,
      Nat.mod_eq_of_lt hlo]
  · rw [h1]
    calc hi * 2 ^ 32 + lo < hi * 2 ^ 32 + 2 ^ 32 := by omega
      _ = (hi + 1) * 2 ^ 32 := by ring
      _ ≤ 2 ^ 32 * 2 ^ 32 := Nat.mul_le_mul_right _ hhi
      _ = 2 ^ 64 := by norm_num

theorem dpdk_rdtsc_combines_spot :
    dpdk_rdtsc 7 9 = 9 * 2 ^ 32 + 7 ∧
    dpdk_rdtsc 7 9 >>> 32 = 9 ∧
    dpdk_rdtsc 7 9 &&& (2 ^ 32 - 1) = 7 ∧
    dpdk_rdtsc 7 9 < 2 ^ 64 :=
  dpdk_rdtsc_combines 7 9 (by norm_num) (by norm_num)

/-- C10: whenever `rte_try_tm` returns 1 (Entered), the last lock read it
performed — the transactional read inside the just-started region — saw the
value 0; the explicit abort path never falls through to the `return 1`
statement. -/
theorem tryEnter_entered_means_flag_zero (env : Env) (wF aF rL : Nat) (s : St)
    (h : rte_try_tm env wF aF = some (1, rL, s)) :
    0 < s.reads ∧ env.lockVal (s.reads - 1) = 0 := by
  have hinv := tryTmLoop_inv env wF aF RTE_RTM_MAX_RETRIES St.init 1 rL s h
  exact hinv.2.2.2.2.2.2 rfl

theorem tryEnter_entered_means_flag_zero_spot :
    0 < (⟨1, 1, 0, 0, 1, 0, []⟩ : St).reads ∧
      envFree.lockVal ((⟨1, 1, 0, 0, 1, 0, []⟩ : St).reads - 1) = 0 :=
  tryEnter_entered_means_flag_zero envFree 0 0 19 ⟨1, 1, 0, 0, 1, 0, []⟩ (by decide)

end Dpdk
